import Mathlib

/-!
Shallow embedding of the player-tracker and live-ingestion core of the
wows-toolkit repository (src/player_tracker.rs, src/app.rs), together with
theorems settling the frozen claims about it.

Modelling conventions:
* `chrono::DateTime<Local>` timestamps are modelled as `Nat` (only ordering
  and equality are used by the code).
* `i64` identifiers are modelled as `Int`.
* `BTreeSet`/`HashSet` are modelled as `Finset` (set semantics; `first()` of a
  `BTreeSet` is its minimum, `last()` its maximum).
* `HashMap`/`BTreeMap` are modelled as association lists with first-match
  lookup and replace-or-append update; only lookups and per-key updates are
  performed by the code, for which this is a faithful map model.
-/

set_option maxHeartbeats 1000000

namespace WowsToolkit

/-- `SortOrder` from player_tracker.rs. -/
inductive SortOrder where
  | Asc
  | Desc
deriving DecidableEq, Repr

/-- `SortOrder::toggle`. -/
def SortOrder.toggle : SortOrder → SortOrder
  | .Asc => .Desc
  | .Desc => .Asc

/-- `SortedBy` from player_tracker.rs. -/
inductive SortedBy where
  | Name (o : SortOrder)
  | Clan (o : SortOrder)
  | LastEncountered (o : SortOrder)
  | TimesEncountered (o : SortOrder)
  | TimesEncounteredInTimeRange (o : SortOrder)
deriving DecidableEq, Repr

/-- `SortedBy::transition_to`: same key toggles the order, a different key
replaces the state with the new value. -/
def SortedBy.transition_to : SortedBy → SortedBy → SortedBy
  | .Name o, .Name _ => .Name o.toggle
  | .Clan o, .Clan _ => .Clan o.toggle
  | .LastEncountered o, .LastEncountered _ => .LastEncountered o.toggle
  | .TimesEncountered o, .TimesEncountered _ => .TimesEncountered o.toggle
  | .TimesEncounteredInTimeRange o, .TimesEncounteredInTimeRange _ =>
      .TimesEncounteredInTimeRange o.toggle
  | _, n => n

/-- `SortedBy::order`. -/
def SortedBy.order : SortedBy → SortOrder
  | .Name o | .Clan o | .LastEncountered o | .TimesEncountered o
  | .TimesEncounteredInTimeRange o => o

/-- The sort key of a `SortedBy` value, with the direction forgotten
(used to state the sort-toggle claim). -/
inductive SortKey where
  | name
  | clan
  | lastEncountered
  | timesEncountered
  | timesEncounteredInTimeRange
deriving DecidableEq, Repr

/-- Key component of a `SortedBy`. -/
def SortedBy.key : SortedBy → SortKey
  | .Name _ => .name
  | .Clan _ => .clan
  | .LastEncountered _ => .lastEncountered
  | .TimesEncountered _ => .timesEncountered
  | .TimesEncounteredInTimeRange _ => .timesEncounteredInTimeRange

/-- Rebuild a `SortedBy` from a key and an order. -/
def SortKey.withOrder : SortKey → SortOrder → SortedBy
  | .name, o => .Name o
  | .clan, o => .Clan o
  | .lastEncountered, o => .LastEncountered o
  | .timesEncountered, o => .TimesEncountered o
  | .timesEncounteredInTimeRange, o => .TimesEncounteredInTimeRange o

/-- `TimePeriod` from player_tracker.rs. -/
inductive TimePeriod where
  | LastDay
  | LastWeek
  | LastMonth
  | AllTime
deriving DecidableEq, Repr

/-- `TimePeriod::to_date`, with `Local::now()` passed explicitly as `now`
(seconds). `LastDay` is 24 hours, `LastWeek` 7 days, `LastMonth` 4 weeks. -/
def TimePeriod.to_date (tp : TimePeriod) (now : Nat) : Option Nat :=
  match tp with
  | .LastDay => some (now - 86400)
  | .LastWeek => some (now - 604800)
  | .LastMonth => some (now - 2419200)
  | .AllTime => none

/-- One entry of `replay_file.meta.vehicles`: the per-match metadata player,
with its team relation (0 = self). -/
structure MetaVehicle where
  name : String
  relation : Nat
deriving DecidableEq, Repr

/-- The part of `ReplayMeta` the tracker reads: the vehicle list and the
match timestamp (`dateTime`, already parsed to a `Nat` instant; the string
parse itself is external `chrono` code). -/
structure ReplayMeta where
  vehicles : List MetaVehicle
  dateTime : Nat
deriving DecidableEq, Repr

/-- A player of the battle report (`report.players()` element), with the
accessors the tracker calls. -/
structure ReportPlayer where
  name : String
  clan : String
  db_id : Int
  clan_id : Int
deriving DecidableEq, Repr

/-- The part of `BattleReport` the tracker reads. -/
structure BattleReport where
  players : List ReportPlayer
  arena_id : Int
deriving DecidableEq, Repr

/-- `Replay` as consumed by `PlayerTracker::update_from_replay`: an optional
battle report plus the replay-file metadata. -/
structure Replay where
  battle_report : Option BattleReport
  meta : ReplayMeta
deriving DecidableEq, Repr

/-- `TrackedPlayer` from player_tracker.rs. -/
structure TrackedPlayer where
  last_name : String
  db_id : Int
  names : Finset String
  clan_id : Int
  clan : String
  timestamps : Finset Nat
  arena_ids : Finset Int
  notes : String
deriving DecidableEq

/-- `TrackedPlayer::default()`. -/
def defaultTrackedPlayer : TrackedPlayer :=
  { last_name := "", db_id := 0, names := ∅, clan_id := 0, clan := "",
    timestamps := ∅, arena_ids := ∅, notes := "" }

/-- `PlayerTracker` from player_tracker.rs. -/
structure PlayerTracker where
  tracked_players_by_time : List (Nat × List Int)
  tracked_players : List (Int × TrackedPlayer)
  filter_time_period : TimePeriod
  sort_order : SortedBy
  player_filter : String
deriving DecidableEq

/-- First-match association-list lookup (map model for `HashMap`/`BTreeMap`
`get`). -/
def lookupA {α β : Type} [DecidableEq α] : List (α × β) → α → Option β
  | [], _ => none
  | (k, v) :: rest, k' => if k = k' then some v else lookupA rest k'

/-- Replace the value at the first occurrence of a key, or append the pair:
the map model for storing through `HashMap`/`BTreeMap` `entry`. -/
def setA {α β : Type} [DecidableEq α] : List (α × β) → α → β → List (α × β)
  | [], k, v => [(k, v)]
  | (k0, v0) :: rest, k, v =>
      if k0 = k then (k0, v) :: rest else (k0, v0) :: setA rest k v

/-- Remove a key (map model for `HashMap::remove`). -/
def removeA {α β : Type} [DecidableEq α] : List (α × β) → α → List (α × β)
  | [], _ => []
  | (k0, v0) :: rest, k =>
      if k0 = k then rest else (k0, v0) :: removeA rest k

/-- `BTreeSet::first()`: the least element, if any. -/
def btreeFirst (s : Finset Nat) : Option Nat :=
  if h : s.Nonempty then some (s.min' h) else none

/-- `BTreeSet::last().unwrap()`: the greatest element (`0` stands in for the
panic on an empty set, which the tracker's non-empty-timestamps invariant
rules out). -/
def btreeLast (s : Finset Nat) : Nat :=
  if h : s.Nonempty then s.max' h else 0

/-- The `update_metadata` flag of `update_from_replay`: true when the
*first* (least) stored timestamp is strictly below the incoming one. -/
def updateMetaB (s : Finset Nat) (ts : Nat) : Bool :=
  match btreeFirst s with
  | some last_seen => decide (last_seen < ts)
  | none => false

/-- The per-player mutation of `update_from_replay` once the skip checks
have passed: conditionally refresh name/clan (recording the previous name as
an alias), then record id, clan id, timestamp and arena id. -/
def applyEncounter (arenaId : Int) (ts : Nat) (player : ReportPlayer)
    (tp : TrackedPlayer) : TrackedPlayer :=
  let um := updateMetaB tp.timestamps ts
  let tp1 :=
    if um = true ∨ tp.timestamps = ∅ then
      let tp0 :=
        if um = true ∧ tp.last_name ∉ tp.names ∧
            tp.last_name ≠ player.name ∧ tp.last_name ≠ "" then
          { tp with names := insert tp.last_name tp.names }
        else tp
      { tp0 with last_name := player.name, clan := player.clan }
    else tp
  { tp1 with db_id := player.db_id, clan_id := player.clan_id,
             timestamps := insert ts tp1.timestamps,
             arena_ids := insert arenaId tp1.arena_ids }

/-- The body of the per-player loop of `PlayerTracker::update_from_replay`,
acting on the pair (tracked_players, tracked_players_by_time). -/
def updateOnePlayer (vehicles : List MetaVehicle) (arenaId : Int) (ts : Nat)
    (acc : List (Int × TrackedPlayer) × List (Nat × List Int))
    (player : ReportPlayer) :
    List (Int × TrackedPlayer) × List (Nat × List Int) :=
  match vehicles.find? (fun mv => mv.name == player.name) with
  | none => acc
  | some mv =>
    if mv.relation = 0 then acc
    else
      let tp := (lookupA acc.1 player.db_id).getD defaultTrackedPlayer
      if arenaId ∈ tp.arena_ids then
        (setA acc.1 player.db_id tp, acc.2)
      else
        (setA acc.1 player.db_id (applyEncounter arenaId ts player tp),
         setA acc.2 ts ((lookupA acc.2 ts).getD [] ++ [player.db_id]))

/-- `PlayerTracker::update_from_replay`. -/
def PlayerTracker.update_from_replay (t : PlayerTracker) (r : Replay) :
    PlayerTracker :=
  match r.battle_report with
  | none => t
  | some report =>
    let ts := r.meta.dateTime
    let res := report.players.foldl
      (updateOnePlayer r.meta.vehicles report.arena_id ts)
      (t.tracked_players, t.tracked_players_by_time)
    { t with tracked_players := res.1, tracked_players_by_time := res.2 }

/-- `u8::to_ascii_lowercase` on a character: only ASCII uppercase letters are
mapped. -/
def asciiLowerChar (c : Char) : Char :=
  if 'A' ≤ c ∧ c ≤ 'Z' then Char.ofNat (c.toNat + 32) else c

/-- `str::to_ascii_lowercase`. -/
def asciiLower (s : String) : String :=
  String.mk (s.data.map asciiLowerChar)

/-- `str::contains(&str)`: substring containment (char-level infix, which for
valid UTF-8 coincides with Rust's byte-level substring test). -/
def strContains (hay needle : String) : Bool :=
  decide (needle.data <:+: hay.data)

/-- The candidate id set of `build_player_tracker_tab`: the union of every
`tracked_players_by_time` bucket whose timestamp is strictly after the window
start (all buckets when there is no window), collected as a set. -/
def playerRange (byTime : List (Nat × List Int)) (fr : Option Nat) :
    Finset Int :=
  match fr with
  | some r => ((byTime.filter (fun b => decide (r < b.1))).flatMap Prod.snd).toFinset
  | none => (byTime.flatMap Prod.snd).toFinset

/-- The filter predicate of `build_player_tracker_tab`: with a non-empty
player filter, require window membership and a substring match against the
lowercased clan, the (not lowercased) current name, or any lowercased alias;
with an empty filter, require window membership only. -/
def passesFilterB (player_filter filter_lower : String) (range : Finset Int)
    (pr : Int × TrackedPlayer) : Bool :=
  if player_filter ≠ "" then
    decide (pr.1 ∈ range) &&
      (strContains (asciiLower pr.2.clan) filter_lower ||
       strContains pr.2.last_name filter_lower ||
       decide (∃ n ∈ pr.2.names, strContains (asciiLower n) filter_lower = true))
  else
    decide (pr.1 ∈ range)

/-- Lexicographic "less or equal" on char lists, by code point: the order
`String::cmp` induces on valid UTF-8 strings (byte-lexicographic comparison
coincides with code-point-lexicographic comparison). -/
def listLexLe : List Char → List Char → Bool
  | [], _ => true
  | _ :: _, [] => false
  | a :: as, b :: bs =>
    if a.toNat < b.toNat then true
    else if b.toNat < a.toNat then false
    else listLexLe as bs

/-- `a.cmp(b) != Greater` for Rust strings. -/
def strLe (a b : String) : Bool :=
  listLexLe a.data b.data

/-- Count of timestamps strictly after the window start, or the full
timestamp count when there is no window (the `TimesEncounteredInTimeRange`
comparison key). -/
def countInRange (s : Finset Nat) (fr : Option Nat) : Nat :=
  match fr with
  | some r => (s.filter (fun ts => r < ts)).card
  | none => s.card

/-- The `sorted_by` comparator of `build_player_tracker_tab`, as the
"comes no later than" relation it sorts by: `sortLe sb fr a b = true` iff the
comparator does not return `Greater` on `(a, b)`. -/
def sortLe (sb : SortedBy) (fr : Option Nat) (a b : Int × TrackedPlayer) :
    Bool :=
  match sb with
  | .Name .Asc => strLe a.2.last_name b.2.last_name
  | .Name .Desc => strLe b.2.last_name a.2.last_name
  | .Clan .Asc => strLe a.2.clan b.2.clan
  | .Clan .Desc => strLe b.2.clan a.2.clan
  | .LastEncountered .Asc => decide (btreeLast a.2.timestamps ≤ btreeLast b.2.timestamps)
  | .LastEncountered .Desc => decide (btreeLast b.2.timestamps ≤ btreeLast a.2.timestamps)
  | .TimesEncountered .Asc => decide (a.2.timestamps.card ≤ b.2.timestamps.card)
  | .TimesEncountered .Desc => decide (b.2.timestamps.card ≤ a.2.timestamps.card)
  | .TimesEncounteredInTimeRange .Asc =>
      decide (countInRange a.2.timestamps fr ≤ countInRange b.2.timestamps fr)
  | .TimesEncounteredInTimeRange .Desc =>
      decide (countInRange b.2.timestamps fr ≤ countInRange a.2.timestamps fr)

/-- The filtering stage of the `build_player_tracker_tab` enumeration:
candidate-window restriction plus the name filter, before sorting. -/
def filteredPlayers (t : PlayerTracker) (now : Nat) :
    List (Int × TrackedPlayer) :=
  let filter_lower := asciiLower t.player_filter
  let fr := t.filter_time_period.to_date now
  let range := playerRange t.tracked_players_by_time fr
  t.tracked_players.filter (passesFilterB t.player_filter filter_lower range)

/-- The row enumeration of `build_player_tracker_tab`: filtered players,
stably sorted by the selected comparator (`itertools::sorted_by` is a stable
sort, modelled by insertion sort). -/
def queryPlayers (t : PlayerTracker) (now : Nat) :
    List (Int × TrackedPlayer) :=
  List.insertionSort
    (fun a b => sortLe t.sort_order (t.filter_time_period.to_date now) a b = true)
    (filteredPlayers t now)

/-- The displayed `times_encountered` of a row: `player.arena_ids.len()`. -/
def displayedTotalEncounters (p : TrackedPlayer) : Nat :=
  p.arena_ids.card

/-- The displayed `times_encountered_in_range` of a row. -/
def displayedEncountersInRange (p : TrackedPlayer) (fr : Option Nat) : Nat :=
  match fr with
  | some r => (p.timestamps.filter (fun ts => r < ts)).card
  | none => displayedTotalEncounters p

/-- `NotifyFileEvent` from app.rs. -/
inductive NotifyFileEvent where
  | Added (path : String)
  | Removed (path : String)
  | PreferencesChanged
  | TempArenaInfoCreated (path : String)
deriving DecidableEq, Repr

/-- The part of `WorldOfWarshipsData` the ingestion loop reads: whether
`game_metadata` is loaded. -/
structure WowsData where
  game_metadata : Option Unit
deriving DecidableEq, Repr

/-- The background task dispatched by the auto-load-latest path
(`update_background_task!(.. load_replay(replay))`). -/
inductive BackgroundTask where
  | LoadingReplay (r : Replay)
deriving DecidableEq, Repr

/-- The fields of `TabState` touched by `try_update_replays`. -/
structure TabState where
  replay_files : Option (List (String × Replay))
  world_of_warships_data : Option WowsData
  auto_load_latest_replay : Bool
  background_task : Option BackgroundTask
  player_tracker : PlayerTracker
deriving DecidableEq

/-- The external world of the ingestion loop: replay parsing (indexed by the
retry-attempt number, since the file may be mid-write and become parseable
later), file reads, arena-metadata decoding, and the live-arena tracker
update (`update_from_live_arena_info`, whose body lives outside the modelled
core and is therefore kept abstract as part of the environment). -/
structure IngestEnv where
  parseReplayAttempt : String → Nat → Option Replay
  readFile : String → Option (List Nat)
  parseArenaMeta : List Nat → Option ReplayMeta
  updateLive : PlayerTracker → ReplayMeta → PlayerTracker

/-- Observation log of the ingestion loop: one entry per
`ReplayFile::from_file` call, and the number of 1-second retry sleeps. -/
structure IngestLog where
  parse_attempts : List String
  sleeps : Nat
deriving DecidableEq, Repr

/-- The `for _ in 0..3` retry loop of the `Added` arm: attempt to parse, on
success insert into `replay_files` (when that map exists) and, when
auto-load is on, dispatch a `LoadingReplay` task, then break; on failure
sleep one second and try again. `n` is the remaining iteration budget, `i`
the attempt index. -/
def addedRetryLoop (env : IngestEnv) (path : String) :
    Nat → Nat → TabState → IngestLog → TabState × IngestLog
  | 0, _, st, log => (st, log)
  | n + 1, i, st, log =>
    let log1 : IngestLog :=
      { log with parse_attempts := log.parse_attempts ++ [path] }
    match env.parseReplayAttempt path i with
    | some replay =>
      let st1 :=
        match st.replay_files with
        | some files =>
            { st with replay_files := some (setA files path replay) }
        | none => st
      let st2 :=
        if st1.auto_load_latest_replay then
          { st1 with background_task := some (.LoadingReplay replay) }
        else st1
      (st2, log1)
    | none =>
      addedRetryLoop env path n (i + 1) st
        { log1 with sleeps := log1.sleeps + 1 }

/-- `TabState::try_update_replays`: drain the queued filesystem events in
order. `Added` retries the parse up to 3 times (only when game data and its
metadata are loaded); `Removed` drops the path from `replay_files`;
`PreferencesChanged` is a no-op; `TempArenaInfoCreated` reads the file —
and on a read failure executes `return`, which exits the whole drain,
leaving the remaining events of this tick unprocessed. -/
def drainEvents (env : IngestEnv) :
    List NotifyFileEvent → TabState → IngestLog → TabState × IngestLog
  | [], st, log => (st, log)
  | e :: rest, st, log =>
    match e with
    | .Added path =>
      match st.world_of_warships_data with
      | some w =>
        match w.game_metadata with
        | some _ =>
          let r := addedRetryLoop env path 3 0 st log
          drainEvents env rest r.1 r.2
        | none => drainEvents env rest st log
      | none => drainEvents env rest st log
    | .Removed path =>
      let st1 :=
        match st.replay_files with
        | some files =>
            { st with replay_files := some (removeA files path) }
        | none => st
      drainEvents env rest st1 log
    | .PreferencesChanged => drainEvents env rest st log
    | .TempArenaInfoCreated path =>
      match env.readFile path with
      | none => (st, log)
      | some bytes =>
        match env.parseArenaMeta bytes with
        | some meta =>
          drainEvents env rest
            { st with player_tracker := env.updateLive st.player_tracker meta }
            log
        | none => drainEvents env rest st log

/-- The `Ignore ourselves` check of `update_from_replay`, as the code
performs it: look the report player up in the metadata vehicles by name and
test the found relation for 0. -/
def markedSelfB (vehicles : List MetaVehicle) (p : ReportPlayer) : Bool :=
  match vehicles.find? (fun v => v.name == p.name) with
  | some mv => decide (mv.relation = 0)
  | none => false

/-- Every report player carrying the given id is marked as self by the
replay's metadata. -/
def selfInReplayB (r : Replay) (X : Int) : Bool :=
  match r.battle_report with
  | none => true
  | some rep =>
      rep.players.all (fun p => !(p.db_id == X) || markedSelfB r.meta.vehicles p)

/-- The player passes both skip checks of the merge loop: its metadata
vehicle is found and its relation is not self. -/
def gateOk (vehicles : List MetaVehicle) (p : ReportPlayer) : Prop :=
  ∃ mv, vehicles.find? (fun v => v.name == p.name) = some mv ∧ mv.relation ≠ 0

/-- The stored player at a key already carries the given arena id. -/
def hasArena (arenaId : Int) (tps : List (Int × TrackedPlayer)) (k : Int) :
    Prop :=
  ∃ tp, lookupA tps k = some tp ∧ arenaId ∈ tp.arena_ids

/-- Every stored player has a non-empty timestamp set. -/
def tsNonempty (tps : List (Int × TrackedPlayer)) : Prop :=
  ∀ pr ∈ tps, pr.2.timestamps ≠ ∅

instance (tps : List (Int × TrackedPlayer)) : Decidable (tsNonempty tps) :=
  List.decidableBAll _ tps

/-- The combined invariant stated by the spec for tracked players:
non-empty timestamps, and the current name absent from the alias set. -/
def trackerInvariant (t : PlayerTracker) : Prop :=
  ∀ pr ∈ t.tracked_players, pr.2.timestamps ≠ ∅ ∧ pr.2.last_name ∉ pr.2.names

instance (t : PlayerTracker) : Decidable (trackerInvariant t) :=
  List.decidableBAll _ t.tracked_players

/-- `PlayerTracker::default()`. -/
def defaultTracker : PlayerTracker :=
  { tracked_players_by_time := [], tracked_players := [],
    filter_time_period := .LastDay, sort_order := .TimesEncountered .Desc,
    player_filter := "" }

/-- A replay of a single non-self player, used by concrete scenarios. -/
def mkOneReplay (nm : String) (db arena : Int) (ts : Nat) : Replay :=
  { battle_report := some
      { players := [{ name := nm, clan := "", db_id := db, clan_id := 0 }],
        arena_id := arena },
    meta := { vehicles := [{ name := nm, relation := 1 }], dateTime := ts } }

/-- A replay whose single player is flagged as self (relation 0). -/
def mkSelfReplay (nm : String) (db arena : Int) (ts : Nat) : Replay :=
  { battle_report := some
      { players := [{ name := nm, clan := "", db_id := db, clan_id := 0 }],
        arena_id := arena },
    meta := { vehicles := [{ name := nm, relation := 0 }], dateTime := ts } }

/-- C1 scenario: player 7 seen at timestamps 10 and 30, then a merge of a
match timestamped 20 (strictly between the two). -/
def c1Pre : PlayerTracker :=
  (defaultTracker.update_from_replay (mkOneReplay ("Old1") 7 1 10)).update_from_replay
    (mkOneReplay ("Old3") 7 3 30)

/-- The C1 player after the out-of-order merge at timestamp 20. -/
def c1Post : PlayerTracker :=
  c1Pre.update_from_replay (mkOneReplay ("New") 7 2 20)

/-- Tracked player 7 of a tracker state (defaulted when absent). -/
def trackedAt (t : PlayerTracker) (id : Int) : TrackedPlayer :=
  (lookupA t.tracked_players id).getD defaultTrackedPlayer

/-- C3 scenario: name sequence A, B, A for player 7 across three matches. -/
def c3Pre : PlayerTracker :=
  (defaultTracker.update_from_replay (mkOneReplay ("A") 7 1 1)).update_from_replay
    (mkOneReplay ("B") 7 2 2)

/-- The tracked player produced by merging a single match with name `A` at
timestamp 1 into an empty tracker (C3 witness value). -/
def c3WitnessPlayer : TrackedPlayer :=
  { last_name := "A", db_id := 7, names := ∅, clan_id := 0, clan := "",
    timestamps := {1}, arena_ids := {1}, notes := "" }

/-- C5 scenario: player 1 in two matches sharing one timestamp, player 2 in
two matches at distinct timestamps. -/
def c5Tracker : PlayerTracker :=
  (((defaultTracker.update_from_replay
      (mkOneReplay ("PA") 1 1 10)).update_from_replay
      (mkOneReplay ("PA") 1 2 10)).update_from_replay
      (mkOneReplay ("PB") 2 3 20)).update_from_replay
      (mkOneReplay ("PB") 2 4 30)

/-- C6 scenario: tracked player named `Foo`, searched for as `Foo`. -/
def c6Tracker : PlayerTracker :=
  { tracked_players_by_time := [(10, [7])],
    tracked_players :=
      [(7, { last_name := "Foo", db_id := 7, names := ∅, clan_id := 0,
             clan := "", timestamps := {10}, arena_ids := {1}, notes := "" })],
    filter_time_period := .AllTime,
    sort_order := .TimesEncountered .Desc,
    player_filter := "Foo" }

/-- C7 scenario: two distinct tracked players sharing the display name
`Dup` (a tie for the `Name` sort key). -/
def c7Tracker : PlayerTracker :=
  { tracked_players_by_time := [(5, [1, 2])],
    tracked_players :=
      [(1, { last_name := "Dup", db_id := 1, names := ∅, clan_id := 0,
             clan := "", timestamps := {5}, arena_ids := {1}, notes := "" }),
       (2, { last_name := "Dup", db_id := 2, names := ∅, clan_id := 0,
             clan := "", timestamps := {5}, arena_ids := {2}, notes := "" })],
    filter_time_period := .AllTime,
    sort_order := .TimesEncountered .Desc,
    player_filter := "" }

/-- C7 state after the first `Name` header click. -/
def c7First : PlayerTracker :=
  { c7Tracker with
    sort_order := c7Tracker.sort_order.transition_to (.Name .Asc) }

/-- C7 state after the second `Name` header click. -/
def c7Second : PlayerTracker :=
  { c7First with
    sort_order := c7First.sort_order.transition_to (.Name .Asc) }

/-- An environment in which no file ever parses or reads. -/
def envNever : IngestEnv :=
  { parseReplayAttempt := fun _ _ => none,
    readFile := fun _ => none,
    parseArenaMeta := fun _ => none,
    updateLive := fun t _ => t }

/-- The replay delivered for path `good` in the C9 scenario. -/
def c9Replay : Replay := mkOneReplay ("G") 3 5 50

/-- C9 environment: `good` parses immediately, every file read fails. -/
def c9Env : IngestEnv :=
  { parseReplayAttempt := fun p _ => if p = "good" then some c9Replay else none,
    readFile := fun _ => none,
    parseArenaMeta := fun _ => none,
    updateLive := fun t _ => t }

/-- A tab state with loaded game data, an empty replay map and auto-load
disabled. -/
def stBase : TabState :=
  { replay_files := some [],
    world_of_warships_data := some { game_metadata := some () },
    auto_load_latest_replay := false,
    background_task := none,
    player_tracker := defaultTracker }

/-- The empty ingestion log. -/
def emptyLog : IngestLog := { parse_attempts := [], sleeps := 0 }

/-- A replay whose parse produced no battle report (C10 witness input). -/
def noReportReplay : Replay :=
  { battle_report := none, meta := { vehicles := [], dateTime := 0 } }

/-- Two matches in which player 9 is flagged as self (C4 witness input). -/
def c4Replays : List Replay :=
  [mkSelfReplay ("Me") 9 1 5, mkSelfReplay ("Me") 9 2 6]

/-- A tracker with two players with distinct names, sorted ascending by
name (C7 witness input). -/
def c7WitnessTracker : PlayerTracker :=
  { tracked_players_by_time := [(5, [1, 2])],
    tracked_players :=
      [(1, { last_name := "Alice", db_id := 1, names := ∅, clan_id := 0,
             clan := "", timestamps := {5}, arena_ids := {1}, notes := "" }),
       (2, { last_name := "Bob", db_id := 2, names := ∅, clan_id := 0,
             clan := "", timestamps := {5}, arena_ids := {2}, notes := "" })],
    filter_time_period := .AllTime,
    sort_order := .Name .Asc,
    player_filter := "" }

/-! ## Association-list lemmas -/

theorem lookupA_setA_self {α β : Type} [DecidableEq α] (m : List (α × β))
    (k : α) (v : β) : lookupA (setA m k v) k = some v := by
  induction m with
  | nil => simp [setA, lookupA]
  | cons p rest ih =>
    by_cases h : p.1 = k
    · simp [setA, h, lookupA]
    · simp [setA, h, lookupA, ih]

theorem lookupA_setA_ne {α β : Type} [DecidableEq α] (m : List (α × β))
    (k k' : α) (v : β) (h : k ≠ k') :
    lookupA (setA m k v) k' = lookupA m k' := by
  induction m with
  | nil => simp [setA, lookupA, h]
  | cons p rest ih =>
    by_cases h0 : p.1 = k
    · have h0' : p.1 ≠ k' := h0 ▸ h
      simp [setA, h0, lookupA, h0', h]
    · simp [setA, h0, lookupA, ih]

theorem setA_eq_of_lookup {α β : Type} [DecidableEq α] (m : List (α × β))
    (k : α) (v : β) (h : lookupA m k = some v) : setA m k v = m := by
  induction m with
  | nil => simp [lookupA] at h
  | cons p rest ih =>
    rcases p with ⟨k0, v0⟩
    by_cases h0 : k0 = k
    · have hv : v = v0 := by
        rw [lookupA] at h
        simp [h0] at h
        exact h.symm
      simp [setA, h0, hv]
    · rw [lookupA] at h
      simp [h0] at h
      simp [setA, h0, ih h]

theorem mem_setA {α β : Type} [DecidableEq α] {m : List (α × β)} {k : α}
    {v : β} {p : α × β} (h : p ∈ setA m k v) : p ∈ m ∨ p = (k, v) := by
  induction m with
  | nil => simpa [setA] using h
  | cons q rest ih =>
    by_cases h0 : q.1 = k
    · rw [setA] at h
      simp [h0] at h
      rcases h with h | h
      · right; rw [h, ← h0]
      · left; simp [h]
    · rw [setA] at h
      simp [h0] at h
      rcases h with h | h
      · left; simp [h]
      · rcases ih h with h1 | h1
        · left; simp [h1]
        · right; exact h1

/-! ## Merge-step lemmas -/

theorem applyEncounter_arena_mem (arenaId : Int) (ts : Nat)
    (player : ReportPlayer) (tp : TrackedPlayer) :
    arenaId ∈ (applyEncounter arenaId ts player tp).arena_ids := by
  simp [applyEncounter]

theorem applyEncounter_ts_nonempty (arenaId : Int) (ts : Nat)
    (player : ReportPlayer) (tp : TrackedPlayer) :
    (applyEncounter arenaId ts player tp).timestamps ≠ ∅ := by
  simp [applyEncounter, Finset.insert_ne_empty]

theorem updateOnePlayer_gateFail (vehicles : List MetaVehicle)
    (arenaId : Int) (ts : Nat)
    (acc : List (Int × TrackedPlayer) × List (Nat × List Int))
    (p : ReportPlayer) (h : ¬ gateOk vehicles p) :
    updateOnePlayer vehicles arenaId ts acc p = acc := by
  rcases hf : vehicles.find? (fun v => v.name == p.name) with _ | mv
  · simp [updateOnePlayer, hf]
  · have hr : mv.relation = 0 := by
      by_contra hr
      exact h ⟨mv, hf, hr⟩
    simp [updateOnePlayer, hf, hr]

theorem updateOnePlayer_hasArena (vehicles : List MetaVehicle)
    (arenaId : Int) (ts : Nat)
    (acc : List (Int × TrackedPlayer) × List (Nat × List Int))
    (p : ReportPlayer) (h : gateOk vehicles p) :
    hasArena arenaId (updateOnePlayer vehicles arenaId ts acc p).1 p.db_id := by
  obtain ⟨mv, hf, hr⟩ := h
  by_cases hm : arenaId ∈ ((lookupA acc.1 p.db_id).getD defaultTrackedPlayer).arena_ids
  · refine ⟨(lookupA acc.1 p.db_id).getD defaultTrackedPlayer, ?_, hm⟩
    simp [updateOnePlayer, hf, hr, hm, lookupA_setA_self]
  · refine ⟨applyEncounter arenaId ts p
      ((lookupA acc.1 p.db_id).getD defaultTrackedPlayer), ?_,
      applyEncounter_arena_mem _ _ _ _⟩
    simp [updateOnePlayer, hf, hr, hm, lookupA_setA_self]

theorem updateOnePlayer_preserves_hasArena (vehicles : List MetaVehicle)
    (arenaId : Int) (ts : Nat)
    (acc : List (Int × TrackedPlayer) × List (Nat × List Int))
    (p : ReportPlayer) (k : Int) (h : hasArena arenaId acc.1 k) :
    hasArena arenaId (updateOnePlayer vehicles arenaId ts acc p).1 k := by
  obtain ⟨tp0, hl, hm0⟩ := h
  rcases hf : vehicles.find? (fun v => v.name == p.name) with _ | mv
  · exact ⟨tp0, by simp [updateOnePlayer, hf, hl], hm0⟩
  · by_cases hr : mv.relation = 0
    · exact ⟨tp0, by simp [updateOnePlayer, hf, hr, hl], hm0⟩
    · by_cases hk : p.db_id = k
      · subst hk
        have hget : (lookupA acc.1 p.db_id).getD defaultTrackedPlayer = tp0 := by
          rw [hl]
          rfl
        refine ⟨tp0, ?_, hm0⟩
        simp [updateOnePlayer, hf, hr, hget, hm0, lookupA_setA_self]
      · refine ⟨tp0, ?_, hm0⟩
        by_cases hm : arenaId ∈ ((lookupA acc.1 p.db_id).getD defaultTrackedPlayer).arena_ids
        · simp [updateOnePlayer, hf, hr, hm, lookupA_setA_ne _ _ _ _ hk, hl]
        · simp [updateOnePlayer, hf, hr, hm, lookupA_setA_ne _ _ _ _ hk, hl]

theorem foldl_preserves_hasArena (vehicles : List MetaVehicle)
    (arenaId : Int) (ts : Nat) (players : List ReportPlayer)
    (acc : List (Int × TrackedPlayer) × List (Nat × List Int))
    (k : Int) (h : hasArena arenaId acc.1 k) :
    hasArena arenaId
      ((players.foldl (updateOnePlayer vehicles arenaId ts) acc).1) k := by
  induction players generalizing acc with
  | nil => exact h
  | cons q ps ih =>
    exact ih _ (updateOnePlayer_preserves_hasArena vehicles arenaId ts acc q k h)

theorem foldl_establishes_hasArena (vehicles : List MetaVehicle)
    (arenaId : Int) (ts : Nat) (players : List ReportPlayer)
    (acc : List (Int × TrackedPlayer) × List (Nat × List Int))
    (p : ReportPlayer) (hp : p ∈ players) (hg : gateOk vehicles p) :
    hasArena arenaId
      ((players.foldl (updateOnePlayer vehicles arenaId ts) acc).1) p.db_id := by
  induction players generalizing acc with
  | nil => cases hp
  | cons q ps ih =>
    rcases List.mem_cons.mp hp with he | hmem
    · subst he
      exact foldl_preserves_hasArena vehicles arenaId ts ps _ p.db_id
        (updateOnePlayer_hasArena vehicles arenaId ts acc p hg)
    · exact ih _ hmem

theorem updateOnePlayer_id (vehicles : List MetaVehicle) (arenaId : Int)
    (ts : Nat) (acc : List (Int × TrackedPlayer) × List (Nat × List Int))
    (p : ReportPlayer)
    (h : ¬ gateOk vehicles p ∨ hasArena arenaId acc.1 p.db_id) :
    updateOnePlayer vehicles arenaId ts acc p = acc := by
  rcases h with h | ⟨tp0, hl, hm0⟩
  · exact updateOnePlayer_gateFail vehicles arenaId ts acc p h
  · rcases hf : vehicles.find? (fun v => v.name == p.name) with _ | mv
    · simp [updateOnePlayer, hf]
    · by_cases hr : mv.relation = 0
      · simp [updateOnePlayer, hf, hr]
      · have hget : (lookupA acc.1 p.db_id).getD defaultTrackedPlayer = tp0 := by
          rw [hl]
          rfl
        have hstep : updateOnePlayer vehicles arenaId ts acc p =
            (setA acc.1 p.db_id tp0, acc.2) := by
          simp [updateOnePlayer, hf, hr, hget, hm0]
        rw [hstep, setA_eq_of_lookup _ _ _ hl]

theorem foldl_id (vehicles : List MetaVehicle) (arenaId : Int) (ts : Nat)
    (players : List ReportPlayer)
    (acc : List (Int × TrackedPlayer) × List (Nat × List Int))
    (h : ∀ p ∈ players, ¬ gateOk vehicles p ∨ hasArena arenaId acc.1 p.db_id) :
    players.foldl (updateOnePlayer vehicles arenaId ts) acc = acc := by
  induction players with
  | nil => rfl
  | cons q ps ih =>
    have hq := updateOnePlayer_id vehicles arenaId ts acc q
      (h q (List.mem_cons_self q ps))
    rw [List.foldl_cons, hq]
    exact ih (fun p hp => h p (List.mem_cons_of_mem q hp))

theorem updateOnePlayer_tsNonempty (vehicles : List MetaVehicle)
    (arenaId : Int) (ts : Nat)
    (acc : List (Int × TrackedPlayer) × List (Nat × List Int))
    (p : ReportPlayer) (h : tsNonempty acc.1) :
    tsNonempty (updateOnePlayer vehicles arenaId ts acc p).1 := by
  rcases hf : vehicles.find? (fun v => v.name == p.name) with _ | mv
  · simpa [updateOnePlayer, hf] using h
  · by_cases hr : mv.relation = 0
    · simpa [updateOnePlayer, hf, hr] using h
    · by_cases hm : arenaId ∈ ((lookupA acc.1 p.db_id).getD defaultTrackedPlayer).arena_ids
      · rcases hlk : lookupA acc.1 p.db_id with _ | tp0
        · rw [hlk] at hm
          simp [defaultTrackedPlayer] at hm
        · have hget : (lookupA acc.1 p.db_id).getD defaultTrackedPlayer = tp0 := by
            rw [hlk]
            rfl
          have hstep : (updateOnePlayer vehicles arenaId ts acc p).1 =
              setA acc.1 p.db_id tp0 := by
            simp [updateOnePlayer, hf, hr, hget, hget ▸ hm]
          rw [hstep, setA_eq_of_lookup _ _ _ hlk]
          exact h
      · have hstep : (updateOnePlayer vehicles arenaId ts acc p).1 =
            setA acc.1 p.db_id (applyEncounter arenaId ts p
              ((lookupA acc.1 p.db_id).getD defaultTrackedPlayer)) := by
          simp [updateOnePlayer, hf, hr, hm]
        rw [hstep]
        intro pr hpr
        rcases mem_setA hpr with h1 | h1
        · exact h pr h1
        · rw [h1]
          exact applyEncounter_ts_nonempty _ _ _ _

theorem foldl_tsNonempty (vehicles : List MetaVehicle) (arenaId : Int)
    (ts : Nat) (players : List ReportPlayer)
    (acc : List (Int × TrackedPlayer) × List (Nat × List Int))
    (h : tsNonempty acc.1) :
    tsNonempty ((players.foldl (updateOnePlayer vehicles arenaId ts) acc).1) := by
  induction players generalizing acc with
  | nil => exact h
  | cons q ps ih =>
    exact ih _ (updateOnePlayer_tsNonempty vehicles arenaId ts acc q h)

theorem updateOnePlayer_keeps_none (vehicles : List MetaVehicle)
    (arenaId : Int) (ts : Nat)
    (acc : List (Int × TrackedPlayer) × List (Nat × List Int))
    (p : ReportPlayer) (X : Int)
    (hX : p.db_id = X → markedSelfB vehicles p = true)
    (h : lookupA acc.1 X = none) :
    lookupA (updateOnePlayer vehicles arenaId ts acc p).1 X = none := by
  rcases hf : vehicles.find? (fun v => v.name == p.name) with _ | mv
  · simpa [updateOnePlayer, hf] using h
  · by_cases hr : mv.relation = 0
    · simpa [updateOnePlayer, hf, hr] using h
    · have hne : p.db_id ≠ X := by
        intro he
        have hs := hX he
        rw [markedSelfB, hf] at hs
        simp at hs
        exact hr hs
      by_cases hm : arenaId ∈ ((lookupA acc.1 p.db_id).getD defaultTrackedPlayer).arena_ids
      · have hstep : (updateOnePlayer vehicles arenaId ts acc p).1 =
            setA acc.1 p.db_id ((lookupA acc.1 p.db_id).getD defaultTrackedPlayer) := by
          simp [updateOnePlayer, hf, hr, hm]
        rw [hstep, lookupA_setA_ne _ _ _ _ hne]
        exact h
      · have hstep : (updateOnePlayer vehicles arenaId ts acc p).1 =
            setA acc.1 p.db_id (applyEncounter arenaId ts p
              ((lookupA acc.1 p.db_id).getD defaultTrackedPlayer)) := by
          simp [updateOnePlayer, hf, hr, hm]
        rw [hstep, lookupA_setA_ne _ _ _ _ hne]
        exact h

theorem foldl_keeps_none (vehicles : List MetaVehicle) (arenaId : Int)
    (ts : Nat) (players : List ReportPlayer)
    (acc : List (Int × TrackedPlayer) × List (Nat × List Int)) (X : Int)
    (hall : ∀ p ∈ players, p.db_id = X → markedSelfB vehicles p = true)
    (h : lookupA acc.1 X = none) :
    lookupA ((players.foldl (updateOnePlayer vehicles arenaId ts) acc).1) X = none := by
  induction players generalizing acc with
  | nil => exact h
  | cons q ps ih =>
    exact ih _ (fun p hp => hall p (List.mem_cons_of_mem q hp))
      (updateOnePlayer_keeps_none vehicles arenaId ts acc q X
        (hall q (List.mem_cons_self q ps)) h)

theorem update_from_replay_keeps_none (t : PlayerTracker) (r : Replay)
    (X : Int) (hs : selfInReplayB r X = true)
    (h : lookupA t.tracked_players X = none) :
    lookupA (t.update_from_replay r).tracked_players X = none := by
  rcases hb : r.battle_report with _ | rep
  · simpa [PlayerTracker.update_from_replay, hb] using h
  · have hall : ∀ p ∈ rep.players, p.db_id = X →
        markedSelfB r.meta.vehicles p = true := by
      rw [selfInReplayB, hb] at hs
      intro p hp he
      have := (List.all_eq_true.mp hs) p hp
      simpa [he] using this
    simp only [PlayerTracker.update_from_replay, hb]
    exact foldl_keeps_none r.meta.vehicles rep.arena_id r.meta.dateTime
      rep.players _ X hall h

/-! ## Sorting lemmas -/

theorem eq_of_perm_pairwise_anti {α : Type} {r : α → α → Prop} :
    ∀ {l₁ l₂ : List α}, l₁.Perm l₂ → l₁.Pairwise r → l₂.Pairwise r →
      (∀ a ∈ l₁, ∀ b ∈ l₁, r a b → r b a → a = b) → l₁ = l₂ := by
  intro l₁
  induction l₁ with
  | nil =>
    intro l₂ hp _ _ _
    exact (hp.symm.eq_nil).symm
  | cons a t ih =>
    intro l₂ hp hs₁ hs₂ anti
    rcases l₂ with _ | ⟨b, t₂⟩
    · exact absurd hp.eq_nil (by simp)
    · have hab : a = b := by
        by_contra hne
        have hb_mem : b ∈ a :: t := hp.symm.subset (List.mem_cons_self b t₂)
        have ha_mem : a ∈ b :: t₂ := hp.subset (List.mem_cons_self a t)
        have hbt : b ∈ t := by
          rcases List.mem_cons.mp hb_mem with h | h
          · exact absurd h.symm hne
          · exact h
        have hat₂ : a ∈ t₂ := by
          rcases List.mem_cons.mp ha_mem with h | h
          · exact absurd h hne
          · exact h
        have hrab : r a b := (List.pairwise_cons.mp hs₁).1 b hbt
        have hrba : r b a := (List.pairwise_cons.mp hs₂).1 a hat₂
        exact hne (anti a (List.mem_cons_self a t) b hb_mem hrab hrba)
      subst hab
      have ht : t.Perm t₂ := hp.cons_inv
      have := ih ht hs₁.of_cons hs₂.of_cons
        (fun x hx y hy => anti x (List.mem_cons_of_mem a hx) y
          (List.mem_cons_of_mem a hy))
      rw [this]

theorem listLexLe_total : ∀ (as bs : List Char),
    listLexLe as bs = true ∨ listLexLe bs as = true := by
  intro as
  induction as with
  | nil => intro bs; left; rfl
  | cons a as' ih =>
    intro bs
    rcases bs with _ | ⟨b, bs'⟩
    · right; rfl
    · by_cases h1 : a.toNat < b.toNat
      · left
        simp [listLexLe, h1]
      · by_cases h2 : b.toNat < a.toNat
        · right
          simp [listLexLe, h2]
        · rcases ih bs' with h | h
          · left
            simp [listLexLe, h1, h2, h]
          · right
            simp [listLexLe, h1, h2, h]

theorem listLexLe_trans : ∀ (as bs cs : List Char),
    listLexLe as bs = true → listLexLe bs cs = true →
    listLexLe as cs = true := by
  intro as
  induction as with
  | nil => intro bs cs _ _; rfl
  | cons a as' ih =>
    intro bs cs h1 h2
    rcases bs with _ | ⟨b, bs'⟩
    · simp [listLexLe] at h1
    · rcases cs with _ | ⟨c, cs'⟩
      · simp [listLexLe] at h2
      · rw [listLexLe] at h1 h2 ⊢
        by_cases hab : a.toNat < b.toNat
        · by_cases hbc : b.toNat < c.toNat
          · simp [Nat.lt_trans hab hbc]
          · by_cases hcb : c.toNat < b.toNat
            · simp [hbc, hcb] at h2
            · have hbc' : b.toNat = c.toNat := Nat.le_antisymm
                (Nat.not_lt.mp hcb) (Nat.not_lt.mp hbc)
              simp [hbc' ▸ hab]
        · by_cases hba : b.toNat < a.toNat
          · simp [hab, hba] at h1
          · have hab' : a.toNat = b.toNat := Nat.le_antisymm
              (Nat.not_lt.mp hba) (Nat.not_lt.mp hab)
            simp [hab, hba] at h1
            by_cases hbc : b.toNat < c.toNat
            · simp [hab' ▸ hbc]
            · by_cases hcb : c.toNat < b.toNat
              · simp [hbc, hcb] at h2
              · simp [hbc, hcb] at h2
                simp [hab' ▸ hbc, hab' ▸ hcb, ih bs' cs' h1 h2]

theorem strLe_total (a b : String) : strLe a b = true ∨ strLe b a = true :=
  listLexLe_total a.data b.data

theorem strLe_trans {a b c : String} (h1 : strLe a b = true)
    (h2 : strLe b c = true) : strLe a c = true :=
  listLexLe_trans a.data b.data c.data h1 h2

theorem sortLe_total (sb : SortedBy) (fr : Option Nat)
    (a b : Int × TrackedPlayer) :
    sortLe sb fr a b = true ∨ sortLe sb fr b a = true := by
  rcases sb with o | o | o | o | o <;> rcases o <;>
    simp only [sortLe, decide_eq_true_eq] <;>
    first
    | exact strLe_total _ _
    | exact le_total _ _

theorem sortLe_trans (sb : SortedBy) (fr : Option Nat)
    {a b c : Int × TrackedPlayer} (h1 : sortLe sb fr a b = true)
    (h2 : sortLe sb fr b c = true) : sortLe sb fr a c = true := by
  rcases sb with o | o | o | o | o <;> rcases o <;>
    simp only [sortLe, decide_eq_true_eq] at h1 h2 ⊢ <;>
    first
    | exact strLe_trans h1 h2
    | exact strLe_trans h2 h1
    | exact le_trans h1 h2
    | exact le_trans h2 h1

theorem sortLe_flip (k : SortKey) (fr : Option Nat)
    (a b : Int × TrackedPlayer) :
    sortLe (k.withOrder .Desc) fr a b = sortLe (k.withOrder .Asc) fr b a := by
  rcases k <;> rfl

theorem transition_same (k : SortKey) (o o' : SortOrder) :
    (k.withOrder o).transition_to (k.withOrder o') = k.withOrder o.toggle := by
  rcases k <;> rfl

theorem transition_diff (s : SortedBy) (k : SortKey) (o : SortOrder)
    (h : s.key ≠ k) : s.transition_to (k.withOrder o) = k.withOrder o := by
  rcases s with o1 | o1 | o1 | o1 | o1 <;> rcases k <;>
    first
    | exact absurd rfl h
    | rfl

theorem insertionSort_sortLe_flip (k : SortKey) (fr : Option Nat)
    (l : List (Int × TrackedPlayer))
    (anti : ∀ a ∈ l, ∀ b ∈ l, sortLe (k.withOrder .Asc) fr a b = true →
      sortLe (k.withOrder .Asc) fr b a = true → a = b) :
    List.insertionSort (fun a b => sortLe (k.withOrder .Desc) fr a b = true) l
      = (List.insertionSort
          (fun a b => sortLe (k.withOrder .Asc) fr a b = true) l).reverse := by
  haveI : IsTotal (Int × TrackedPlayer)
      (fun a b => sortLe (k.withOrder .Desc) fr a b = true) :=
    ⟨fun a b => sortLe_total _ fr a b⟩
  haveI : IsTrans (Int × TrackedPlayer)
      (fun a b => sortLe (k.withOrder .Desc) fr a b = true) :=
    ⟨fun _ _ _ h1 h2 => sortLe_trans _ fr h1 h2⟩
  haveI : IsTotal (Int × TrackedPlayer)
      (fun a b => sortLe (k.withOrder .Asc) fr a b = true) :=
    ⟨fun a b => sortLe_total _ fr a b⟩
  haveI : IsTrans (Int × TrackedPlayer)
      (fun a b => sortLe (k.withOrder .Asc) fr a b = true) :=
    ⟨fun _ _ _ h1 h2 => sortLe_trans _ fr h1 h2⟩
  have hperm : (List.insertionSort
      (fun a b => sortLe (k.withOrder .Desc) fr a b = true) l).Perm
      ((List.insertionSort
        (fun a b => sortLe (k.withOrder .Asc) fr a b = true) l).reverse) :=
    (List.perm_insertionSort _ l).trans
      ((List.perm_insertionSort _ l).symm.trans (List.reverse_perm _).symm)
  have hs₁ : (List.insertionSort
      (fun a b => sortLe (k.withOrder .Desc) fr a b = true) l).Pairwise
      (fun a b => sortLe (k.withOrder .Asc) fr b a = true) := by
    refine (List.sorted_insertionSort _ l).imp ?_
    intro a b h
    rwa [sortLe_flip] at h
  have hs₂ : ((List.insertionSort
      (fun a b => sortLe (k.withOrder .Asc) fr a b = true) l).reverse).Pairwise
      (fun a b => sortLe (k.withOrder .Asc) fr b a = true) :=
    List.pairwise_reverse.mpr
      ((List.sorted_insertionSort _ l).imp (fun h => h))
  refine eq_of_perm_pairwise_anti hperm hs₁ hs₂ ?_
  intro a ha b hb hab hba
  exact anti a ((List.perm_insertionSort _ l).subset ha) b
    ((List.perm_insertionSort _ l).subset hb) hba hab

theorem queryPlayers_set_sort (t : PlayerTracker) (s : SortedBy) (now : Nat) :
    queryPlayers { t with sort_order := s } now =
      List.insertionSort
        (fun a b => sortLe s (t.filter_time_period.to_date now) a b = true)
        (filteredPlayers t now) := rfl

theorem queryPlayers_unfold (t : PlayerTracker) (now : Nat) :
    queryPlayers t now =
      List.insertionSort
        (fun a b => sortLe t.sort_order (t.filter_time_period.to_date now) a b = true)
        (filteredPlayers t now) := rfl

/-! ## Claim theorems -/

/-- C10: for every replay whose battle report is absent, `update_from_replay`
leaves the whole `PlayerTracker` (both maps and the query state) unchanged. -/
theorem c10_no_report_no_change (t : PlayerTracker) (r : Replay)
    (h : r.battle_report = none) : t.update_from_replay r = t := by
  simp [PlayerTracker.update_from_replay, h]

/-- C10 witness: evaluated on a concrete report-less replay. -/
theorem c10_no_report_witness :
    defaultTracker.update_from_replay noReportReplay = defaultTracker :=
  c10_no_report_no_change defaultTracker noReportReplay rfl

/-- C2: merging the same replay twice yields a tracker state identical to
merging it once — re-merge of the same match is a per-player no-op, so there
are no duplicate timestamps, no duplicate match ids, and unchanged encounter
counts. -/
theorem c2_merge_idempotent (t : PlayerTracker) (r : Replay) :
    (t.update_from_replay r).update_from_replay r = t.update_from_replay r := by
  rcases hb : r.battle_report with _ | rep
  · simp [PlayerTracker.update_from_replay, hb]
  · have hid : rep.players.foldl
        (updateOnePlayer r.meta.vehicles rep.arena_id r.meta.dateTime)
        (rep.players.foldl
          (updateOnePlayer r.meta.vehicles rep.arena_id r.meta.dateTime)
          (t.tracked_players, t.tracked_players_by_time)) =
        rep.players.foldl
          (updateOnePlayer r.meta.vehicles rep.arena_id r.meta.dateTime)
          (t.tracked_players, t.tracked_players_by_time) := by
      apply foldl_id
      intro p hp
      by_cases hg : gateOk r.meta.vehicles p
      · exact Or.inr (foldl_establishes_hasArena _ _ _ _ _ p hp hg)
      · exact Or.inl hg
    simp only [PlayerTracker.update_from_replay, hb, Prod.mk.eta]
    rw [hid]

/-- C3 (amended): every tracker merge preserves the non-emptiness of each
tracked player's timestamp set. -/
theorem c3_timestamps_nonempty_preserved (t : PlayerTracker) (r : Replay)
    (h : tsNonempty t.tracked_players) :
    tsNonempty (t.update_from_replay r).tracked_players := by
  rcases hb : r.battle_report with _ | rep
  · simpa [PlayerTracker.update_from_replay, hb] using h
  · simp only [PlayerTracker.update_from_replay, hb]
    exact foldl_tsNonempty _ _ _ _ _ h

/-- C3 witness: the single player created by a concrete merge into the empty
tracker has a non-empty timestamp set. -/
theorem c3_timestamps_nonempty_witness : c3WitnessPlayer.timestamps ≠ ∅ :=
  c3_timestamps_nonempty_preserved defaultTracker (mkOneReplay ("A") 7 1 1)
    (by decide) (7, c3WitnessPlayer) (by decide)

/-- C3 counterexample: the alias half of the claimed invariant fails — after
the name sequence A, B a further merge with name A (a previously-aliased
name) leaves `last_name` equal to an entry of the alias set. -/
theorem c3_alias_invariant_fails :
    trackerInvariant c3Pre ∧
    ¬ trackerInvariant (c3Pre.update_from_replay (mkOneReplay ("A") 7 3 3)) := by
  decide

/-- C4: a player marked as self (relation 0) in every merged replay and
absent from the tracker is never present in the by-id map after any sequence
of merges. -/
theorem c4_self_never_tracked (rs : List Replay) (t : PlayerTracker) (X : Int)
    (h0 : lookupA t.tracked_players X = none)
    (hself : ∀ r ∈ rs, selfInReplayB r X = true) :
    lookupA ((rs.foldl PlayerTracker.update_from_replay t).tracked_players) X
      = none := by
  induction rs generalizing t with
  | nil => exact h0
  | cons r rs' ih =>
    exact ih _
      (update_from_replay_keeps_none t r X (hself r (List.mem_cons_self r rs')) h0)
      (fun q hq => hself q (List.mem_cons_of_mem r hq))

/-- C4 witness: two concrete self-flagged matches leave player 9 untracked. -/
theorem c4_self_never_tracked_witness :
    lookupA ((c4Replays.foldl PlayerTracker.update_from_replay
      defaultTracker).tracked_players) 9 = none :=
  c4_self_never_tracked c4Replays defaultTracker 9 rfl (by decide)

/-- C1 (failing input): with prior timestamps 10 and 30 (newest 30) a merge
timestamped 20 still refreshes `last_name` — the code compares against the
oldest stored timestamp (`BTreeSet::first()`), not the newest, so the
claimed refresh rule is violated. -/
theorem c1_refresh_compares_oldest :
    btreeLast (trackedAt c1Pre 7).timestamps = 30 ∧
    (trackedAt c1Pre 7).last_name = "Old3" ∧
    (trackedAt c1Post 7).last_name = "New" := by
  decide

/-- C5 (counterexample): two players with equal distinct-match counts are
strictly ordered by the total-encounters comparator, because that comparator
compares timestamp counts, not match-id counts. -/
theorem c5_sort_key_counterexample :
    displayedTotalEncounters (trackedAt c5Tracker 1)
      = displayedTotalEncounters (trackedAt c5Tracker 2) ∧
    sortLe (.TimesEncountered .Asc) none
      (1, trackedAt c5Tracker 1) (2, trackedAt c5Tracker 2) = true ∧
    sortLe (.TimesEncountered .Asc) none
      (2, trackedAt c5Tracker 2) (1, trackedAt c5Tracker 1) = false := by
  decide

/-- C5 (amended): the displayed total-encounters is the number of distinct
match ids, while the total-encounters sort comparator compares the number of
distinct encounter timestamps (which can differ when matches share a
timestamp). -/
theorem c5_amended_keys (fr : Option Nat) (a b : Int × TrackedPlayer)
    (p : TrackedPlayer) :
    displayedTotalEncounters p = p.arena_ids.card ∧
    sortLe (.TimesEncountered .Asc) fr a b
      = decide (a.2.timestamps.card ≤ b.2.timestamps.card) ∧
    sortLe (.TimesEncountered .Desc) fr a b
      = decide (b.2.timestamps.card ≤ a.2.timestamps.card) :=
  ⟨rfl, rfl, rfl⟩

/-- C6 (failing input): the player named `Foo` is inside the candidate
window and matches the filter `Foo` case-insensitively, yet the query
excludes it — the code lowercases the filter but not `last_name`. -/
theorem c6_name_filter_case_sensitive :
    (7 : Int) ∈ playerRange c6Tracker.tracked_players_by_time
      (c6Tracker.filter_time_period.to_date 100) ∧
    strContains (asciiLower ("Foo")) (asciiLower ("Foo")) = true ∧
    queryPlayers c6Tracker 100 = [] := by
  decide

/-- C9 (failing input): with the event queue holding an unreadable
arena-info event followed by a parseable `Added` event, the drain stops at
the read failure (the code `return`s from the whole drain), so the `Added`
event is not processed in that tick — processed alone, it would be. -/
theorem c9_read_failure_aborts_drain :
    (drainEvents c9Env [.TempArenaInfoCreated ("bad"), .Added ("good")]
      stBase emptyLog).1.replay_files = some [] ∧
    (drainEvents c9Env [.Added ("good")] stBase emptyLog).1.replay_files
      = some [(("good" : String), c9Replay)] := by
  decide

/-- C7 (counterexample): with two enumerated players tied on the `Name`
sort key, clicking `Name` twice flips the direction, but the stable sort
keeps the tied pair in candidate order both times, so the second enumeration
is not the reverse of the first. -/
theorem c7_tie_not_reversed :
    c7First.sort_order = .Name .Asc ∧
    c7Second.sort_order = .Name .Desc ∧
    queryPlayers c7Second 100 ≠ (queryPlayers c7First 100).reverse := by
  decide

/-- C7 (amended): selecting the currently-selected sort key again flips the
direction, and when no two enumerated candidates are tied on that key the
enumeration is exactly reversed; selecting a different key resets the state
to that key with ascending direction. -/
theorem c7_sort_toggle_amended (t : PlayerTracker) (now : Nat) (k : SortKey)
    (s : SortedBy) (k2 : SortKey) (o2 : SortOrder)
    (hs : t.sort_order = k.withOrder .Asc)
    (hties : ∀ a ∈ filteredPlayers t now, ∀ b ∈ filteredPlayers t now,
      sortLe (k.withOrder .Asc) (t.filter_time_period.to_date now) a b = true →
      sortLe (k.withOrder .Asc) (t.filter_time_period.to_date now) b a = true →
      a = b)
    (hdiff : s.key ≠ k2) :
    ({ t with sort_order := t.sort_order.transition_to (k.withOrder .Asc) }
        : PlayerTracker).sort_order = k.withOrder .Desc ∧
    queryPlayers
        { t with sort_order := t.sort_order.transition_to (k.withOrder .Asc) }
        now
      = (queryPlayers t now).reverse ∧
    s.transition_to (k2.withOrder o2) = k2.withOrder o2 := by
  have htt : t.sort_order.transition_to (k.withOrder .Asc) = k.withOrder .Desc := by
    rw [hs]
    exact transition_same k .Asc .Asc
  refine ⟨htt, ?_, transition_diff s k2 o2 hdiff⟩
  rw [queryPlayers_set_sort, htt, queryPlayers_unfold t now, hs]
  exact insertionSort_sortLe_flip k (t.filter_time_period.to_date now)
    (filteredPlayers t now) hties

/-- C7 witness: a concrete tie-free tracker where the second `Name` click
reverses the enumeration and a different-key click resets to ascending. -/
theorem c7_sort_toggle_witness :
    ({ c7WitnessTracker with sort_order :=
        c7WitnessTracker.sort_order.transition_to (SortKey.name.withOrder .Asc) }
        : PlayerTracker).sort_order = SortKey.name.withOrder .Desc ∧
    queryPlayers
        { c7WitnessTracker with sort_order :=
          c7WitnessTracker.sort_order.transition_to (SortKey.name.withOrder .Asc) }
        100
      = (queryPlayers c7WitnessTracker 100).reverse ∧
    (SortedBy.TimesEncountered .Desc).transition_to
        (SortKey.name.withOrder .Asc) = SortKey.name.withOrder .Asc :=
  c7_sort_toggle_amended c7WitnessTracker 100 .name (.TimesEncountered .Desc)
    .name .Asc rfl (by decide) (by decide)

theorem addedRetryLoop_never (env : IngestEnv) (path : String) (st : TabState)
    (log : IngestLog) (hfail : ∀ i, env.parseReplayAttempt path i = none) :
    addedRetryLoop env path 3 0 st log =
      (st, { parse_attempts := log.parse_attempts ++ [path, path, path],
             sleeps := log.sleeps + 3 }) := by
  simp [addedRetryLoop, hfail]

/-- C8: an `Added` event whose file never parses (game data being loaded) is
attempted exactly 3 times with a 1-second sleep after each failure, then
abandoned with the tab state unchanged, and the drain continues with the
remaining events. -/
theorem c8_retry_bound (env : IngestEnv) (st : TabState)
    (rest : List NotifyFileEvent) (log : IngestLog) (path : String)
    (w : WowsData) (hw : st.world_of_warships_data = some w)
    (hm : w.game_metadata = some ())
    (hfail : ∀ i, env.parseReplayAttempt path i = none) :
    drainEvents env (.Added path :: rest) st log =
      drainEvents env rest st
        { parse_attempts := log.parse_attempts ++ [path, path, path],
          sleeps := log.sleeps + 3 } := by
  simp only [drainEvents, hw, hm]
  rw [addedRetryLoop_never env path st log hfail]

/-- C8 witness: a concrete never-parseable environment performs exactly the
three logged attempts and sleeps. -/
theorem c8_retry_bound_witness :
    drainEvents envNever [.Added ("p")] stBase emptyLog =
      drainEvents envNever [] stBase
        { parse_attempts := [("p"), ("p"), ("p")], sleeps := 3 } :=
  c8_retry_bound envNever stBase [] emptyLog ("p")
    { game_metadata := some () } rfl rfl (fun _ => rfl)

end WowsToolkit
